import Mathlib

/-!
Verification of the LED-UP utility scripts against their specification.

Two units are embedded:

* `hash.py` — deterministic hashing: `prepare_data`, `hash_data`, `hash_hex`.
  Python values that can be passed to these functions are modelled by
  `PyData`; `json.dumps(·, sort_keys=True)` is modelled by `ser`
  (with Python's default separators `": "` and `", "` and
  `ensure_ascii=True` escaping), and `hashlib.sha256` is modelled by
  `sha256`, a direct embedding of FIPS 180-4 SHA-256 over byte lists.

* `sample.pu.py` — paginated FHIR resource fetching:
  `fetch_patient_resources`, embedded as the fuelled loop `fetchRun`
  over an environment mapping URLs to HTTP responses, with the
  next-link scan embedded as `findNext`.

Python exceptions are modelled by `Except PyErr`; `None` results and
missing keys by `Option`.
-/

/-- Python values as passed to `hash.py`'s functions: strings, dicts
(association lists of string keys in insertion order), and the other
kinds the code discriminates on.  `nonSerializable ty` stands for any
object of type `ty` (e.g. a `set`) that `json.dumps` cannot encode. -/
inductive PyData where
  | ofNone
  | ofBool (b : Bool)
  | ofInt (n : Int)
  | ofStr (s : String)
  | ofList (xs : List PyData)
  | ofDict (kvs : List (String × PyData))
  | nonSerializable (tyName : String)

/-- Python exceptions raised by the embedded code. -/
inductive PyErr where
  | valueError (msg : String)
  | typeError (msg : String)
  | keyError (key : String)
deriving DecidableEq

deriving instance DecidableEq for Except

/-- Python `str(error)`: the message of a `ValueError`/`TypeError`, and
the quoted key of a `KeyError`. -/
def PyErr.msg : PyErr → String
  | .valueError m => m
  | .typeError m => m
  | .keyError k => "\x27" ++ k ++ "\x27"

/-- Lowercase hexadecimal digit. -/
def hexChar (n : Nat) : Char := "0123456789abcdef".data.getD n 'x'

/-- Four lowercase hex digits, most significant first. -/
def hex4 (n : Nat) : List Char :=
  [hexChar (n / 4096 % 16), hexChar (n / 256 % 16), hexChar (n / 16 % 16), hexChar (n % 16)]

/-- JSON `\uXXXX` escape (with a surrogate pair above U+FFFF), as
produced by `json.dumps` with its default `ensure_ascii=True`. -/
def uEscape (n : Nat) : List Char :=
  if n < 65536 then '\\' :: 'u' :: hex4 n
  else
    let m := n - 65536
    ('\\' :: 'u' :: hex4 (55296 + m / 1024)) ++ ('\\' :: 'u' :: hex4 (56320 + m % 1024))

/-- Escaping of one character inside a JSON string literal, following
`json.dumps`: named escapes, `\uXXXX` for other control characters and
for everything outside printable ASCII. -/
def escapeChar (c : Char) : List Char :=
  if c = '\\' then ['\\', '\\']
  else if c = '"' then ['\\', '"']
  else if c.toNat = 10 then ['\\', 'n']
  else if c.toNat = 13 then ['\\', 'r']
  else if c.toNat = 9 then ['\\', 't']
  else if c.toNat = 8 then ['\\', 'b']
  else if c.toNat = 12 then ['\\', 'f']
  else if c.toNat < 32 || c.toNat ≥ 127 then uEscape c.toNat
  else [c]

/-- A JSON string literal for `s`, quotes included. -/
def encodeJsonString (s : String) : String :=
  ⟨'"' :: (s.data.map escapeChar).flatten ++ ['"']⟩

/-- Comparison of dict items by key, as done by `json.dumps(..., sort_keys=True)`
(Python compares the string keys; a real dict never holds two equal keys). -/
def keyLe (p q : String × PyData) : Prop := p.1 ≤ q.1

instance : DecidableRel keyLe := fun p q => inferInstanceAs (Decidable (p.1 ≤ q.1))

instance : IsTotal (String × PyData) keyLe := ⟨fun p q => le_total p.1 q.1⟩

instance : IsTrans (String × PyData) keyLe := ⟨fun _ _ _ h h' => le_trans h h'⟩

mutual
/-- The serialization performed by `json.dumps(data, sort_keys=True)`:
default separators put one space after each `":"` and `","`; every
dict's items are serialized in ascending key order; a value `json`
cannot encode makes the whole dump fail with the offending Python type
name (Python raises `TypeError("Object of type ... is not JSON serializable")`). -/
def ser : PyData → Except String String
  | .ofNone => .ok "null"
  | .ofBool true => .ok "true"
  | .ofBool false => .ok "false"
  | .ofInt n => .ok (toString n)
  | .ofStr s => .ok (encodeJsonString s)
  | .ofList xs =>
    match serL xs with
    | .ok items => .ok ("[" ++ String.intercalate ", " items ++ "]")
    | .error e => .error e
  | .ofDict kvs =>
    match serP (kvs.insertionSort keyLe) with
    | .ok items => .ok ("\x7b" ++ String.intercalate ", " items ++ "\x7d")
    | .error e => .error e
  | .nonSerializable ty => .error ty
termination_by d => sizeOf d
decreasing_by
  all_goals simp
  all_goals rw [(List.perm_insertionSort keyLe kvs).sizeOf_eq_sizeOf]
  all_goals omega

/-- Serialization of the elements of a JSON array, in order. -/
def serL : List PyData → Except String (List String)
  | [] => .ok []
  | x :: xs =>
    match ser x, serL xs with
    | .ok r, .ok rs => .ok (r :: rs)
    | .error e, _ => .error e
    | _, .error e => .error e
termination_by l => sizeOf l
decreasing_by
  all_goals simp
  all_goals omega

/-- Serialization of already-sorted dict items: each item is rendered
as `"key": value` (one space after the colon, Python's default key
separator). -/
def serP : List (String × PyData) → Except String (List String)
  | [] => .ok []
  | (k, v) :: xs =>
    match ser v, serP xs with
    | .ok r, .ok rs => .ok ((encodeJsonString k ++ ": " ++ r) :: rs)
    | .error e, _ => .error e
    | _, .error e => .error e
termination_by l => sizeOf l
decreasing_by
  all_goals simp
  all_goals omega
end

/-- hash.py, `prepare_data`: a string is returned unchanged; a dict is
serialized by `json.dumps(data, sort_keys=True)`; anything else raises
`ValueError("Data must be either a string or a JSON object")`. -/
def prepare_data (data : PyData) : Except PyErr String :=
  match data with
  | .ofStr s => .ok s
  | .ofDict kvs =>
    match ser (.ofDict kvs) with
    | .ok s => .ok s
    | .error ty => .error (.typeError ("Object of type " ++ ty ++ " is not JSON serializable"))
  | _ => .error (.valueError "Data must be either a string or a JSON object")

/-- Truncation to a 32-bit word. -/
def w32 (n : Nat) : Nat := n % 4294967296

/-- Right rotation of a 32-bit word by `k` bits. -/
def rotr (k x : Nat) : Nat := w32 ((x >>> k) ||| (x <<< (32 - k)))

/-- SHA-256 `Ch` function. -/
def shaCh (x y z : Nat) : Nat := (x &&& y) ^^^ ((x ^^^ 4294967295) &&& z)

/-- SHA-256 `Maj` function. -/
def shaMaj (x y z : Nat) : Nat := (x &&& y) ^^^ (x &&& z) ^^^ (y &&& z)

/-- SHA-256 `Σ₀`. -/
def bigSigma0 (x : Nat) : Nat := rotr 2 x ^^^ rotr 13 x ^^^ rotr 22 x

/-- SHA-256 `Σ₁`. -/
def bigSigma1 (x : Nat) : Nat := rotr 6 x ^^^ rotr 11 x ^^^ rotr 25 x

/-- SHA-256 `σ₀`. -/
def smallSigma0 (x : Nat) : Nat := rotr 7 x ^^^ rotr 18 x ^^^ (x >>> 3)

/-- SHA-256 `σ₁`. -/
def smallSigma1 (x : Nat) : Nat := rotr 17 x ^^^ rotr 19 x ^^^ (x >>> 10)

/-- The 64 SHA-256 round constants (fractional cube roots of the first
64 primes, FIPS 180-4 §4.2.2). -/
def K256 : List Nat :=
  [1116352408, 1899447441, 3049323471, 3921009573, 961987163, 1508970993, 2453635748,
   2870763221, 3624381080, 310598401, 607225278, 1426881987, 1925078388, 2162078206,
   2614888103, 3248222580, 3835390401, 4022224774, 264347078, 604807628, 770255983,
   1249150122, 1555081692, 1996064986, 2554220882, 2821834349, 2952996808, 3210313671,
   3336571891, 3584528711, 113926993, 338241895, 666307205, 773529912, 1294757372,
   1396182291, 1695183700, 1986661051, 2177026350, 2456956037, 2730485921, 2820302411,
   3259730800, 3345764771, 3516065817, 3600352804, 4094571909, 275423344, 430227734,
   506948616, 659060556, 883997877, 958139571, 1322822218, 1537002063, 1747873779,
   1955562222, 2024104815, 2227730452, 2361852424, 2428436474, 2756734187, 3204031479,
   3329325298]

/-- The eight 32-bit working registers of SHA-256. -/
structure Hash8 where
  a : Nat
  b : Nat
  c : Nat
  d : Nat
  e : Nat
  f : Nat
  g : Nat
  h : Nat

/-- SHA-256 initial hash value (fractional square roots of the first
8 primes, FIPS 180-4 §5.3.3). -/
def initH : Hash8 :=
  ⟨1779033703, 3144134277, 1013904242, 2773480762, 1359893119, 2600822924, 528734635,
   1541459225⟩

/-- Big-endian packing of bytes into 32-bit words. -/
def toWords : List Nat → List Nat
  | b0 :: b1 :: b2 :: b3 :: rest =>
    (b0 * 16777216 + b1 * 65536 + b2 * 256 + b3) :: toWords rest
  | _ => []

/-- One extension step of the SHA-256 message schedule, iterated `steps`
times: appends `σ₁(w[t-2]) + w[t-7] + σ₀(w[t-15]) + w[t-16]` (mod 2³²). -/
def msgSchedule : Nat → List Nat → List Nat
  | 0, ws => ws
  | steps + 1, ws =>
    let t := ws.length
    msgSchedule steps
      (ws ++ [w32 (smallSigma1 (ws.getD (t - 2) 0) + ws.getD (t - 7) 0 +
        smallSigma0 (ws.getD (t - 15) 0) + ws.getD (t - 16) 0)])

/-- One SHA-256 compression round for round constant and schedule word `kw`. -/
def roundFn (s : Hash8) (kw : Nat × Nat) : Hash8 :=
  let t1 := w32 (s.h + bigSigma1 s.e + shaCh s.e s.f s.g + kw.1 + kw.2)
  let t2 := w32 (bigSigma0 s.a + shaMaj s.a s.b s.c)
  ⟨w32 (t1 + t2), s.a, s.b, s.c, w32 (s.d + t1), s.e, s.f, s.g⟩

/-- SHA-256 compression of one 64-byte block into the chaining value. -/
def processBlock (H : Hash8) (block : List Nat) : Hash8 :=
  let ws := msgSchedule 48 (toWords block)
  let s := (List.zip K256 ws).foldl roundFn H
  ⟨w32 (H.a + s.a), w32 (H.b + s.b), w32 (H.c + s.c), w32 (H.d + s.d),
   w32 (H.e + s.e), w32 (H.f + s.f), w32 (H.g + s.g), w32 (H.h + s.h)⟩

/-- The 8-byte big-endian encoding of the message bit length. -/
def lenBytes (L : Nat) : List Nat :=
  let b := 8 * L
  [b / 72057594037927936 % 256, b / 281474976710656 % 256, b / 1099511627776 % 256,
   b / 4294967296 % 256, b / 16777216 % 256, b / 65536 % 256, b / 256 % 256, b % 256]

/-- SHA-256 padding: a `0x80` byte, zeros up to 56 mod 64, then the
bit length (FIPS 180-4 §5.1.1). -/
def padMsg (msg : List Nat) : List Nat :=
  let L := msg.length
  let k := (119 - L % 64) % 64
  msg ++ 128 :: List.replicate k 0 ++ lenBytes L

/-- Compression of all 64-byte blocks in sequence; `fuel` bounds the
number of blocks (the padded length over 64 always suffices). -/
def processBlocks (H : Hash8) : Nat → List Nat → Hash8
  | _, [] => H
  | 0, _ => H
  | fuel + 1, l => processBlocks (processBlock H (l.take 64)) fuel (l.drop 64)

/-- Big-endian bytes of one 32-bit word. -/
def wordBytes (w : Nat) : List Nat :=
  [w / 16777216 % 256, w / 65536 % 256, w / 256 % 256, w % 256]

/-- The 32 digest bytes of a final SHA-256 state. -/
def hashBytes (s : Hash8) : List Nat :=
  wordBytes s.a ++ wordBytes s.b ++ wordBytes s.c ++ wordBytes s.d ++
  wordBytes s.e ++ wordBytes s.f ++ wordBytes s.g ++ wordBytes s.h

/-- SHA-256 of a byte sequence (the digest as 32 bytes), embedding
`hashlib.sha256(...).digest()`. -/
def sha256 (msg : List Nat) : List Nat :=
  let padded := padMsg msg
  hashBytes (processBlocks initH padded.length padded)

/-- UTF-8 encoding of one character (Python `str.encode('utf-8')`). -/
def utf8Bytes (c : Char) : List Nat :=
  let n := c.toNat
  if n < 128 then [n]
  else if n < 2048 then [192 + n / 64, 128 + n % 64]
  else if n < 65536 then [224 + n / 4096, 128 + n / 64 % 64, 128 + n % 64]
  else [240 + n / 262144, 128 + n / 4096 % 64, 128 + n / 64 % 64, 128 + n % 64]

/-- UTF-8 bytes of a string. -/
def strBytes (s : String) : List Nat := (s.data.map utf8Bytes).flatten

/-- Two lowercase hex digits of one byte. -/
def byteHex (b : Nat) : List Char := [hexChar (b / 16), hexChar (b % 16)]

/-- Lowercase hexadecimal rendering of a byte sequence
(`hashlib`'s `hexdigest` applied to the digest bytes). -/
def bytesToHex (bs : List Nat) : String := ⟨(bs.map byteHex).flatten⟩

/-- hash.py, `hash_data`: prepare the data, UTF-8 encode, SHA-256 digest;
any exception raised inside the `try` block is re-raised as
`ValueError("Failed to hash data: ...")` carrying the original message. -/
def hash_data (data : PyData) : Except PyErr (List Nat) :=
  match prepare_data data with
  | .ok s => .ok (sha256 (strBytes s))
  | .error e => .error (.valueError ("Failed to hash data: " ++ e.msg))

/-- hash.py, `hash_hex`: same as `hash_data` but returning
`hexdigest()`, the lowercase hexadecimal form of the digest. -/
def hash_hex (data : PyData) : Except PyErr String :=
  match prepare_data data with
  | .ok s => .ok (bytesToHex (sha256 (strBytes s)))
  | .error e => .error (.valueError ("Failed to hash data: " ++ e.msg))

set_option maxRecDepth 100000 in
theorem sha256_hello_world :
    bytesToHex (sha256 (strBytes "hello world")) =
      "b94d27b9934d3e08a52e52d7da7dabfac484efe37a5380ee9088f7ace2efcde9" := by
  decide

/-- One element of a FHIR bundle's `link` list, keeping only the keys
the code reads; a missing key makes the subscript raise `KeyError`. -/
structure LinkObj where
  relation : Option String
  url : Option String
deriving DecidableEq

/-- A parsed FHIR bundle page: `data.get('entry', [])` and
`data.get('link', [])` read these two optional fields; entries are
opaque payloads of type `α`. -/
structure FhirPage (α : Type) where
  entry : Option (List α)
  link : Option (List LinkObj)
deriving DecidableEq

/-- What `requests.get` yields for one URL: a status code, and the
parsed body (read only when the status is 200). -/
structure HttpResponse (α : Type) where
  status : Nat
  body : FhirPage α
deriving DecidableEq

/-- sample.pu.py, lines 48-52: the `for link in data.get('link', [])`
scan.  Returns the URL of the first link whose `relation` equals
`"next"` (later matches are never reached), `none` when there is none,
and raises `KeyError` when a scanned link lacks the `relation` key or
the first matching link lacks the `url` key. -/
def findNext : List LinkObj → Except PyErr (Option String)
  | [] => .ok none
  | l :: rest =>
    match l.relation with
    | none => .error (.keyError "relation")
    | some r =>
      if r = "next" then
        match l.url with
        | none => .error (.keyError "url")
        | some u => .ok (some u)
      else findNext rest

/-- sample.pu.py, lines 40-56: the `while url:` pagination loop, one
constructor-step per iteration, driven by `fuel` (the Python loop is
unbounded; `none` means the fuel ran out before the loop finished).
`env` maps a URL to the response of the authenticated GET against it;
`url = none` models Python's `url = None`, and the empty string is
likewise falsy for `while url:`.  On status 200 the page's entries are
appended and the next-link scan decides the following URL; on any other
status the loop breaks and the accumulated list is returned; a
`KeyError` escaping the scan aborts the whole call. -/
def fetchRun (env : String → HttpResponse α) : Nat → Option String → List α →
    Option (Except PyErr (List α))
  | 0, _, _ => none
  | fuel + 1, url, resources =>
    match url with
    | none => some (.ok resources)
    | some u =>
      if u = "" then some (.ok resources)
      else
        let response := env u
        if response.status = 200 then
          let resources' := resources ++ response.body.entry.getD []
          match findNext (response.body.link.getD []) with
          | .error e => some (.error e)
          | .ok nextUrl => fetchRun env fuel nextUrl resources'
        else some (.ok resources)

/-- sample.pu.py, `fetch_patient_resources(fhir_url, token)`: start the
loop at the given endpoint with an empty accumulator (the bearer token
only shapes the request headers, which are part of `env`). -/
def fetch_patient_resources (env : String → HttpResponse α) (fuel : Nat) (fhirUrl : String) :
    Option (Except PyErr (List α)) :=
  fetchRun env fuel (some fhirUrl) []

/-- A finite chain of 200 pages: from `u`, each page carries the listed
entries and links to the next, and the last page has no next link. -/
inductive PageChain (env : String → HttpResponse α) : String → List (List α) → Prop where
  | last {u : String} {es : List α} :
      u ≠ "" → (env u).status = 200 →
      (env u).body.entry.getD [] = es →
      findNext ((env u).body.link.getD []) = .ok none →
      PageChain env u [es]
  | step {u u' : String} {es : List α} {rest : List (List α)} :
      u ≠ "" → (env u).status = 200 →
      (env u).body.entry.getD [] = es →
      findNext ((env u).body.link.getD []) = .ok (some u') →
      PageChain env u' rest →
      PageChain env u (es :: rest)

/-- A finite chain of 200 pages from `u` that ends by linking to
`ufail` (possibly empty, in which case `ufail = u`). -/
inductive PageChainTo (env : String → HttpResponse α) : String → List (List α) → String → Prop where
  | refl (u : String) : PageChainTo env u [] u
  | step {u u' ufail : String} {es : List α} {rest : List (List α)} :
      u ≠ "" → (env u).status = 200 →
      (env u).body.entry.getD [] = es →
      findNext ((env u).body.link.getD []) = .ok (some u') →
      PageChainTo env u' rest ufail →
      PageChainTo env u (es :: rest) ufail

theorem fetchRun_mono (env : String → HttpResponse α) :
    ∀ {f g : Nat} {url : Option String} {acc : List α} {r : Except PyErr (List α)},
      fetchRun env f url acc = some r → f ≤ g → fetchRun env g url acc = some r := by
  intro f
  induction f with
  | zero => intro g url acc r h; simp [fetchRun] at h
  | succ f ih =>
    intro g url acc r h hle
    obtain ⟨g, rfl⟩ : ∃ g', g = g' + 1 := ⟨g - 1, by omega⟩
    match url with
    | none => simpa [fetchRun] using h
    | some u =>
      by_cases hu : u = ""
      · simpa [fetchRun, hu] using h
      · by_cases hst : (env u).status = 200
        · simp only [fetchRun, hu, if_false, hst, if_true] at h ⊢
          match hnext : findNext ((env u).body.link.getD []) with
          | .error e => simpa [hnext] using h
          | .ok nextUrl =>
            rw [hnext] at h
            exact ih h (by omega)
        · simpa [fetchRun, hu, hst] using h

/-- C2: whenever the fetcher reaches a page that answers with a non-200
status after a finite prefix of 200 pages, the loop stops at that page,
returns exactly the entries accumulated from the earlier 200 pages (the
partial result is kept, not discarded), and raises nothing. -/
theorem C2_non200_stops_with_partial_results
    {α : Type} {env : String → HttpResponse α} {u ufail : String} {ess : List (List α)}
    (hchain : PageChainTo env u ess ufail)
    (hne : ufail ≠ "") (hstatus : (env ufail).status ≠ 200) (acc : List α) :
    fetchRun env (ess.length + 1) (some u) acc = some (.ok (acc ++ ess.flatten)) := by
  induction hchain generalizing acc with
  | refl u => simp [fetchRun, hne, hstatus]
  | step h1 h2 h3 h4 hrest ih =>
    rename_i u u' ufail' es rest
    rw [show (es :: rest).length + 1 = rest.length + 1 + 1 by simp]
    rw [fetchRun]
    simp only [h1, h2, h3, h4, if_true, if_false]
    rw [ih hne hstatus]
    simp [List.append_assoc]

/-- C3: over any finite chain of 200 pages, the fetcher appends each
page's entry list (the empty list when the `entry` field is absent) in
the order the pages are retrieved, follows the link whose relation is
`"next"`, and terminates with the ordered concatenation of all entry
lists once a page has no next link. -/
theorem C3_follows_next_links_and_concatenates
    {α : Type} {env : String → HttpResponse α} {u : String} {ess : List (List α)}
    (hchain : PageChain env u ess) (acc : List α) :
    fetchRun env (ess.length + 1) (some u) acc = some (.ok (acc ++ ess.flatten)) := by
  induction hchain generalizing acc with
  | last h1 h2 h3 h4 =>
    simp only [fetchRun, h1, if_false, h2, if_true, h3, h4]
    simp
  | step h1 h2 h3 h4 hrest ih =>
    rename_i u u' es rest
    rw [show (es :: rest).length + 1 = rest.length + 1 + 1 by simp]
    rw [fetchRun]
    simp only [h1, h2, h3, h4, if_true, if_false]
    rw [ih]
    simp [List.append_assoc]

theorem findNext_skips_non_next {pre : List LinkObj}
    (hpre : ∀ x ∈ pre, ∃ r, x.relation = some r ∧ r ≠ "next") (rest : List LinkObj) :
    findNext (pre ++ rest) = findNext rest := by
  induction pre with
  | nil => rfl
  | cons x pre ih =>
    obtain ⟨r, hx, hr⟩ := hpre x (by simp)
    simp only [List.cons_append, findNext, hx, hr, if_false]
    exact ih fun y hy => hpre y (by simp [hy])

/-- C7: the pagination loop terminates whenever the next-link chain is
finite and acyclic, expressed by a measure `m` on URLs that strictly
decreases along every next link the environment serves: from any start
URL, `m url + 2` loop iterations always suffice to produce a result. -/
theorem C7_pagination_terminates
    {α : Type} (env : String → HttpResponse α) (m : String → Nat)
    (hm : ∀ u : String, u ≠ "" → (env u).status = 200 →
      ∀ u' : String, findNext ((env u).body.link.getD []) = .ok (some u') → m u' < m u)
    (url : String) (acc : List α) :
    ∃ r, fetchRun env (m url + 2) (some url) acc = some r := by
  suffices h : ∀ n : Nat, ∀ (url : String) (acc : List α), m url < n →
      ∃ r, fetchRun env (m url + 2) (some url) acc = some r from
    h (m url + 1) url acc (by omega)
  intro n
  induction n with
  | zero => intro url acc h; omega
  | succ n ih =>
    intro url acc hlt
    by_cases hu : url = ""
    · refine ⟨.ok acc, ?_⟩
      simp [fetchRun, hu]
    · by_cases hst : (env url).status = 200
      · match hnext : findNext ((env url).body.link.getD []) with
        | .error e =>
          refine ⟨.error e, ?_⟩
          rw [show m url + 2 = m url + 1 + 1 by omega, fetchRun]
          simp [hu, hst, hnext]
        | .ok none =>
          refine ⟨.ok (acc ++ (env url).body.entry.getD []), ?_⟩
          rw [show m url + 2 = m url + 1 + 1 by omega, fetchRun]
          simp only [hu, hst, hnext, if_true, if_false]
          simp [fetchRun]
        | .ok (some u') =>
          have hdec := hm url hu hst u' hnext
          obtain ⟨r, hr⟩ := ih u' (acc ++ (env url).body.entry.getD []) (by omega)
          refine ⟨r, ?_⟩
          rw [show m url + 2 = m url + 1 + 1 by omega, fetchRun]
          simp only [hu, hst, hnext, if_true, if_false]
          exact fetchRun_mono env hr (by omega)
      · refine ⟨.ok acc, ?_⟩
        rw [show m url + 2 = m url + 1 + 1 by omega, fetchRun]
        simp [hu, hst]

/-- C8: the next-link scan stops at the first link whose relation is
`"next"`: whatever links follow it, its URL is the one returned, and on
a 200 page the fetcher continues at exactly that URL. -/
theorem C8_first_next_link_is_followed
    {α : Type} {pre post : List LinkObj} {lnk : LinkObj} {u : String}
    (hpre : ∀ x ∈ pre, ∃ r, x.relation = some r ∧ r ≠ "next")
    (hrel : lnk.relation = some "next") (hurl : lnk.url = some u)
    (env : String → HttpResponse α) (url : String) (fuel : Nat) (acc : List α)
    (hne : url ≠ "") (hst : (env url).status = 200)
    (hlinks : (env url).body.link.getD [] = pre ++ lnk :: post) :
    findNext (pre ++ lnk :: post) = .ok (some u) ∧
    fetchRun env (fuel + 1) (some url) acc =
      fetchRun env fuel (some u) (acc ++ (env url).body.entry.getD []) := by
  have hfind : findNext (pre ++ lnk :: post) = .ok (some u) := by
    rw [findNext_skips_non_next hpre]
    simp [findNext, hrel, hurl]
  refine ⟨hfind, ?_⟩
  rw [fetchRun]
  simp [hne, hst, hlinks, hfind]

/-- C9: the no-raise guarantee needs well-formed links: if, at or
before the first `"next"` link, some link object lacks the `relation`
key, the scan raises `KeyError('relation')` and the fetcher call fails
with that error instead of returning the accumulated collection. -/
theorem C9_missing_relation_key_raises
    {α : Type} {pre post : List LinkObj} {lnk : LinkObj}
    (hpre : ∀ x ∈ pre, ∃ r, x.relation = some r ∧ r ≠ "next")
    (hrel : lnk.relation = none)
    (env : String → HttpResponse α) (url : String) (fuel : Nat) (acc : List α)
    (hne : url ≠ "") (hst : (env url).status = 200)
    (hlinks : (env url).body.link.getD [] = pre ++ lnk :: post) :
    findNext (pre ++ lnk :: post) = .error (.keyError "relation") ∧
    fetchRun env (fuel + 1) (some url) acc = some (.error (.keyError "relation")) := by
  have hfind : findNext (pre ++ lnk :: post) = .error (.keyError "relation") := by
    rw [findNext_skips_non_next hpre]
    simp [findNext, hrel]
  refine ⟨hfind, ?_⟩
  rw [fetchRun]
  simp [hne, hst, hlinks, hfind]

/-- Two mocked pages: page 1 answers 200 with two entries and a next
link to page 2; page 2 answers 200 with one entry and no next link;
every other URL answers 404. -/
def envTwoPages : String → HttpResponse String := fun u =>
  if u = "u1" then
    ⟨200, ⟨some ["e1", "e2"],
      some [⟨some "self", some "u1"⟩, ⟨some "next", some "u2"⟩]⟩⟩
  else if u = "u2" then
    ⟨200, ⟨some ["e3"], some [⟨some "self", some "u2"⟩]⟩⟩
  else
    ⟨404, ⟨none, none⟩⟩

theorem C3_witness :
    PageChain envTwoPages "u1" [["e1", "e2"], ["e3"]] ∧
    fetch_patient_resources envTwoPages 3 "u1" = some (.ok ["e1", "e2", "e3"]) := by
  have hlast : PageChain envTwoPages "u2" [["e3"]] :=
    @PageChain.last String envTwoPages "u2" ["e3"]
      (by decide) (by decide) (by decide) (by decide)
  have hchain : PageChain envTwoPages "u1" [["e1", "e2"], ["e3"]] :=
    @PageChain.step String envTwoPages "u1" "u2" ["e1", "e2"] [["e3"]]
      (by decide) (by decide) (by decide) (by decide) hlast
  exact ⟨hchain, by simpa using C3_follows_next_links_and_concatenates hchain []⟩

/-- Page 1 answers 200 with two entries and a next link to page 2,
which answers 404. -/
def envStops : String → HttpResponse String := fun u =>
  if u = "u1" then
    ⟨200, ⟨some ["e1", "e2"], some [⟨some "next", some "u2"⟩]⟩⟩
  else
    ⟨404, ⟨none, none⟩⟩

theorem C2_witness :
    PageChainTo envStops "u1" [["e1", "e2"]] "u2" ∧
    (envStops "u2").status ≠ 200 ∧
    fetch_patient_resources envStops 2 "u1" = some (.ok ["e1", "e2"]) := by
  have hchain : PageChainTo envStops "u1" [["e1", "e2"]] "u2" :=
    @PageChainTo.step String envStops "u1" "u2" "u2" ["e1", "e2"] []
      (by decide) (by decide) (by decide) (by decide) (.refl "u2")
  refine ⟨hchain, by decide, ?_⟩
  simpa using C2_non200_stops_with_partial_results hchain (by decide) (by decide) []

/-- An environment whose every response is a 404. -/
def envDown : String → HttpResponse String := fun _ => ⟨404, ⟨none, none⟩⟩

theorem C7_witness :
    ∃ r, fetchRun envDown 2 (some "start") ([] : List String) = some r :=
  C7_pagination_terminates envDown (fun _ => 0)
    (fun _ _ hs _ _ => by simp [envDown] at hs) "start" []

/-- A 200 page whose link list holds a self link and then two links
with relation `"next"`, to `"b"` and to `"c"`. -/
def envTwoNexts : String → HttpResponse String := fun u =>
  if u = "a" then
    ⟨200, ⟨some ["e1"],
      some [⟨some "self", some "a"⟩, ⟨some "next", some "b"⟩, ⟨some "next", some "c"⟩]⟩⟩
  else
    ⟨404, ⟨none, none⟩⟩

theorem C8_witness :
    findNext [⟨some "self", some "a"⟩, ⟨some "next", some "b"⟩, ⟨some "next", some "c"⟩] =
      .ok (some "b") ∧
    fetchRun envTwoNexts 2 (some "a") ([] : List String) =
      fetchRun envTwoNexts 1 (some "b") ["e1"] := by
  have h := @C8_first_next_link_is_followed String
    [⟨some "self", some "a"⟩] [⟨some "next", some "c"⟩] ⟨some "next", some "b"⟩ "b"
    (by intro x hx; simp at hx; subst hx; exact ⟨"self", rfl, by decide⟩)
    rfl rfl envTwoNexts "a" 1 [] (by decide) (by decide) (by decide)
  simpa using h

/-- A 200 page whose link list holds a self link and then a link object
with no `relation` key. -/
def envBadLink : String → HttpResponse String := fun u =>
  if u = "a" then
    ⟨200, ⟨some ["e1"], some [⟨some "self", some "a"⟩, ⟨none, some "b"⟩]⟩⟩
  else
    ⟨404, ⟨none, none⟩⟩

theorem C9_witness :
    findNext [⟨some "self", some "a"⟩, ⟨none, some "b"⟩] = .error (.keyError "relation") ∧
    fetchRun envBadLink 1 (some "a") ([] : List String) = some (.error (.keyError "relation")) := by
  have h := @C9_missing_relation_key_raises String
    [⟨some "self", some "a"⟩] [] ⟨none, some "b"⟩
    (by intro x hx; simp at hx; subst hx; exact ⟨"self", rfl, by decide⟩)
    rfl envBadLink "a" 0 [] (by decide) (by decide) (by decide)
  simpa using h

/-- Strict key comparison, used to identify the sorted item lists of
two dicts that hold the same items. -/
def keyLt (p q : String × PyData) : Prop := p.1 < q.1

instance : IsAntisymm (String × PyData) keyLt :=
  ⟨fun _ _ h h' => absurd (lt_trans h h') (lt_irrefl _)⟩

theorem insertionSort_eq_of_perm {kvs1 kvs2 : List (String × PyData)}
    (hperm : kvs1.Perm kvs2) (hnd : (kvs1.map Prod.fst).Nodup) :
    kvs1.insertionSort keyLe = kvs2.insertionSort keyLe := by
  have hp : (kvs1.insertionSort keyLe).Perm (kvs2.insertionSort keyLe) :=
    (List.perm_insertionSort keyLe kvs1).trans
      (hperm.trans (List.perm_insertionSort keyLe kvs2).symm)
  have hstrict : ∀ l : List (String × PyData), l.Perm kvs1 →
      List.Sorted keyLe l → List.Sorted keyLt l := by
    intro l hl hs
    have hne : List.Pairwise (fun p q : String × PyData => p.1 ≠ q.1) l := by
      have : (l.map Prod.fst).Nodup := ((hl.map Prod.fst).nodup_iff).mpr hnd
      rw [List.Nodup, List.pairwise_map] at this
      exact this
    exact (hs.and hne).imp fun h => lt_of_le_of_ne h.1 h.2
  exact List.eq_of_perm_of_sorted hp
    (hstrict _ (List.perm_insertionSort keyLe kvs1) (List.sorted_insertionSort keyLe kvs1))
    (hstrict _ ((List.perm_insertionSort keyLe kvs2).trans hperm.symm)
      (List.sorted_insertionSort keyLe kvs2))

/-- C1: hashing is invariant under dict insertion order — two dicts
holding the same key-value pairs (in any order, keys pairwise distinct
as in every Python dict) canonicalize to the same string, because the
items are serialized in sorted key order, and therefore `hash_hex`
yields the same result on both. -/
theorem C1_hash_hex_insertion_order_invariant
    {kvs1 kvs2 : List (String × PyData)}
    (hperm : kvs1.Perm kvs2) (hnd : (kvs1.map Prod.fst).Nodup) :
    hash_hex (.ofDict kvs1) = hash_hex (.ofDict kvs2) := by
  have hsort := insertionSort_eq_of_perm hperm hnd
  have hser : ser (.ofDict kvs1) = ser (.ofDict kvs2) := by
    rw [ser, ser, hsort]
  rw [hash_hex, hash_hex, prepare_data, prepare_data, hser]

theorem C1_witness :
    [("name", PyData.ofStr "John"), ("age", PyData.ofInt 19)].Perm
      [("age", PyData.ofInt 19), ("name", PyData.ofStr "John")] ∧
    ([("name", PyData.ofStr "John"), ("age", PyData.ofInt 19)].map Prod.fst).Nodup ∧
    hash_hex (.ofDict [("name", PyData.ofStr "John"), ("age", PyData.ofInt 19)]) =
      hash_hex (.ofDict [("age", PyData.ofInt 19), ("name", PyData.ofStr "John")]) := by
  refine ⟨List.Perm.swap _ _ _, by simp, ?_⟩
  exact C1_hash_hex_insertion_order_invariant (List.Perm.swap _ _ _) (by simp)

/-- C5: every failure inside `hash_data`/`hash_hex` (the `try` block
spans canonicalization and digesting) is re-raised as the single
`ValueError("Failed to hash data: ...")` carrying the original
message, and on success both functions return normally with the digest
of the canonical string. -/
theorem C5_failures_wrapped_as_hashing_error (d : PyData) :
    (∀ e, prepare_data d = .error e →
      hash_data d = .error (.valueError ("Failed to hash data: " ++ e.msg)) ∧
      hash_hex d = .error (.valueError ("Failed to hash data: " ++ e.msg))) ∧
    (∀ s, prepare_data d = .ok s →
      hash_data d = .ok (sha256 (strBytes s)) ∧
      hash_hex d = .ok (bytesToHex (sha256 (strBytes s)))) := by
  constructor
  · intro e he
    constructor <;> simp [hash_data, hash_hex, he]
  · intro s hs
    constructor <;> simp [hash_data, hash_hex, hs]

theorem C5_witness :
    prepare_data PyData.ofNone =
      .error (.valueError "Data must be either a string or a JSON object") ∧
    hash_data PyData.ofNone =
      .error (.valueError "Failed to hash data: Data must be either a string or a JSON object") ∧
    hash_hex PyData.ofNone =
      .error (.valueError "Failed to hash data: Data must be either a string or a JSON object") := by
  have h := (C5_failures_wrapped_as_hashing_error PyData.ofNone).1 _ rfl
  refine ⟨rfl, ?_, ?_⟩
  · rw [h.1]; decide
  · rw [h.2]; decide

theorem wordBytes_lt (w : Nat) : ∀ b ∈ wordBytes w, b < 256 := by
  intro b hb
  simp [wordBytes] at hb
  rcases hb with rfl | rfl | rfl | rfl <;> exact Nat.mod_lt _ (by norm_num)

theorem hashBytes_lt (s : Hash8) : ∀ b ∈ hashBytes s, b < 256 := by
  intro b hb
  simp only [hashBytes, List.mem_append] at hb
  rcases hb with ((((((h | h) | h) | h) | h) | h) | h) | h <;> exact wordBytes_lt _ _ h

theorem hexChar_mem : ∀ n < 16, hexChar n ∈ "0123456789abcdef".data := by decide

theorem hexFlatten_length (bs : List Nat) :
    ((bs.map byteHex).flatten).length = 2 * bs.length := by
  induction bs with
  | nil => rfl
  | cons b bs ih => simp [byteHex] at *; omega

theorem bytesToHex_chars {bs : List Nat} (hbs : ∀ b ∈ bs, b < 256) :
    ∀ c ∈ (bytesToHex bs).data, c ∈ "0123456789abcdef".data := by
  intro c hc
  have hc' : c ∈ (bs.map byteHex).flatten := hc
  rw [List.mem_flatten] at hc'
  obtain ⟨l, hl, hcl⟩ := hc'
  rw [List.mem_map] at hl
  obtain ⟨b, hb, rfl⟩ := hl
  have hb256 := hbs b hb
  simp only [byteHex, List.mem_cons, List.not_mem_nil, or_false] at hcl
  rcases hcl with rfl | rfl
  · exact hexChar_mem _ (Nat.div_lt_of_lt_mul (by omega))
  · exact hexChar_mem _ (Nat.mod_lt _ (by norm_num))

/-- C6: for every input string, the digest is exactly 32 bytes and the
hexadecimal form is exactly 64 characters drawn from `0-9a-f`
(matching `^[0-9a-f]\x7b64\x7d$`). -/
theorem C6_digest_and_hex_shape (s : String) :
    ∃ bs hx, hash_data (.ofStr s) = .ok bs ∧ bs.length = 32 ∧
      hash_hex (.ofStr s) = .ok hx ∧ hx.length = 64 ∧
      ∀ c ∈ hx.data, c ∈ "0123456789abcdef".data := by
  refine ⟨sha256 (strBytes s), bytesToHex (sha256 (strBytes s)), rfl, rfl, rfl, ?_, ?_⟩
  · have h32 : (sha256 (strBytes s)).length = 32 := rfl
    have := hexFlatten_length (sha256 (strBytes s))
    rw [h32] at this
    exact this
  · exact bytesToHex_chars (hashBytes_lt _)

/-- C10: being a dict is not sufficient for hashing to succeed — as
soon as `json.dumps` fails on some value inside the dict, the failure
surfaces through `hash_data`/`hash_hex` as the wrapped
`ValueError("Failed to hash data: Object of type ... is not JSON serializable")`,
which is not the invalid-input-kind message. -/
theorem C10_dict_not_sufficient {kvs : List (String × PyData)} {ty : String}
    (hser : ser (.ofDict kvs) = .error ty) :
    hash_data (.ofDict kvs) =
      .error (.valueError ("Failed to hash data: " ++
        ("Object of type " ++ ty ++ " is not JSON serializable"))) ∧
    hash_hex (.ofDict kvs) =
      .error (.valueError ("Failed to hash data: " ++
        ("Object of type " ++ ty ++ " is not JSON serializable"))) ∧
    hash_data (.ofDict kvs) ≠
      .error (.valueError ("Failed to hash data: " ++
        "Data must be either a string or a JSON object")) := by
  have hprep : prepare_data (.ofDict kvs) =
      .error (.typeError ("Object of type " ++ ty ++ " is not JSON serializable")) := by
    simp [prepare_data, hser]
  refine ⟨?_, ?_, ?_⟩
  · simp [hash_data, hprep, PyErr.msg]
  · simp [hash_hex, hprep, PyErr.msg]
  · simp only [hash_data, hprep, PyErr.msg]
    intro h
    have := congrArg (fun x : Except PyErr (List Nat) =>
      match x with
      | .error (.valueError m) => m.data
      | _ => []) h
    simp at this

theorem C10_witness :
    ser (.ofDict [("ids", PyData.nonSerializable "set")]) = .error "set" ∧
    hash_data (.ofDict [("ids", PyData.nonSerializable "set")]) =
      .error (.valueError "Failed to hash data: Object of type set is not JSON serializable") ∧
    hash_hex (.ofDict [("ids", PyData.nonSerializable "set")]) =
      .error (.valueError "Failed to hash data: Object of type set is not JSON serializable") := by
  have hser : ser (.ofDict [("ids", PyData.nonSerializable "set")]) = .error "set" := by
    simp [ser, serP, List.insertionSort, List.orderedInsert, keyLe]
  have h := C10_dict_not_sufficient hser
  refine ⟨hser, ?_, ?_⟩
  · rw [h.1]; decide
  · rw [h.2.1]; decide

/-- Whether a Python value is a `str` (`isinstance(data, str)`). -/
def PyData.isStr : PyData → Bool
  | .ofStr _ => true
  | _ => false

/-- Whether a Python value is a `dict` (`isinstance(data, dict)`). -/
def PyData.isDict : PyData → Bool
  | .ofDict _ => true
  | _ => false

/-- C4 (amended): `prepare_data` returns text unchanged; a dict is
serialized with its items in ascending key order, on one line, with
Python's default separators (one space after each `":"` and `","`, no
other whitespace added); every other input kind fails with
`ValueError("Data must be either a string or a JSON object")`. -/
theorem C4_canonicalize_amended :
    (∀ s, prepare_data (.ofStr s) = .ok s) ∧
    (∀ kvs : List (String × PyData), ∃ skvs : List (String × PyData),
      skvs.Perm kvs ∧ List.Sorted (· ≤ ·) (skvs.map Prod.fst) ∧
      prepare_data (.ofDict kvs) =
        (match serP skvs with
         | .ok items => .ok ("\x7b" ++ String.intercalate ", " items ++ "\x7d")
         | .error ty => .error (.typeError ("Object of type " ++ ty ++ " is not JSON serializable")))) ∧
    (∀ d : PyData, d.isStr = false → d.isDict = false →
      prepare_data d = .error (.valueError "Data must be either a string or a JSON object")) := by
  refine ⟨fun s => rfl, ?_, ?_⟩
  · intro kvs
    refine ⟨kvs.insertionSort keyLe, List.perm_insertionSort keyLe kvs, ?_, ?_⟩
    · have hs := List.sorted_insertionSort keyLe kvs
      rw [List.Sorted, List.pairwise_map]
      exact hs
    · rw [prepare_data, ser]
      match hsp : serP (kvs.insertionSort keyLe) with
      | .ok items => simp [hsp]
      | .error ty => simp [hsp]
  · intro d h1 h2
    match d with
    | .ofNone | .ofBool _ | .ofInt _ | .ofList _ | .nonSerializable _ => rfl
    | .ofStr s => simp [PyData.isStr] at h1
    | .ofDict kvs => simp [PyData.isDict] at h2

theorem C4_counterexample :
    prepare_data (.ofDict [("b", .ofInt 2), ("a", .ofInt 1)]) =
      .ok "\x7b\"a\": 1, \"b\": 2\x7d" ∧
    ' ' ∈ "\x7b\"a\": 1, \"b\": 2\x7d".data ∧
    (∀ kv ∈ [("b", PyData.ofInt 2), ("a", PyData.ofInt 1)], ' ' ∉ kv.1.data) ∧
    prepare_data (.ofDict [("b", .ofInt 2), ("a", .ofInt 1)]) ≠
      .ok "\x7b\"a\":1,\"b\":2\x7d" := by
  have h : prepare_data (.ofDict [("b", .ofInt 2), ("a", .ofInt 1)]) =
      .ok "\x7b\"a\": 1, \"b\": 2\x7d" := by
    simp +decide [prepare_data, ser, serP, serL, List.insertionSort, List.orderedInsert,
      keyLe, encodeJsonString, escapeChar, String.intercalate]
  refine ⟨h, by decide, by decide, ?_⟩
  rw [h]
  decide

theorem C4_witness :
    prepare_data (.ofStr "hello world") = .ok "hello world" ∧
    prepare_data (.ofInt 5) =
      .error (.valueError "Data must be either a string or a JSON object") :=
  ⟨C4_canonicalize_amended.1 "hello world",
   C4_canonicalize_amended.2.2 (.ofInt 5) rfl rfl⟩
